import Mathlib

/-!
Verification of the `ospac` chunked compatibility-matrix pipeline.

This file gives a shallow embedding of the two Python source files:

* `split_compatibility_matrix.py` — `split_compatibility_matrix` partitions one
  pairwise license-compatibility JSON document into fixed-size chunk files plus
  an index, and `load_split_matrix` reconstructs the document from those files;
* `monitor_progress.py` — `monitor_progress` polls a progress file every five
  seconds and reports, recovering locally from any read/parse error.

JSON values are modelled by the inductive type `Json`; Python dictionaries
(whose keys are unique strings, in insertion order) are modelled as association
lists `List (String × Json)`.  File I/O is modelled by explicit directory
states and write traces; a Python exception is an `Except` error value, using
the error taxonomy of the specification (`NotFoundError` for
`FileNotFoundError`, `MalformedInputError` for `json.JSONDecodeError` and for
the `AttributeError`/`TypeError` raised on mistyped JSON content,
`ZeroDivisionError` kept as its own case).
-/

namespace Ospac

/-- A JSON value as produced by Python's `json.load`.  Numbers are modelled as
integers (the documents under consideration carry only counts and opaque
entries; no claim depends on float semantics). -/
inductive Json where
  | null : Json
  | bool : Bool → Json
  | num : Int → Json
  | str : String → Json
  | arr : List Json → Json
  | obj : List (String × Json) → Json

/-- Python `dict` lookup (`d.get(key)` / `d[key]`) on an association list.
Python dictionaries have unique keys, so first-match lookup is faithful. -/
def dictGet {β : Type} : List (String × β) → String → Option β
  | [], _ => none
  | (k, v) :: rest, key => if k = key then some v else dictGet rest key

/-- Python `d[key] = v`: replace the value in place when the key is present
(keeping its position), append a fresh entry otherwise. -/
def dictInsert (d : List (String × Json)) (key : String) (v : Json) :
    List (String × Json) :=
  if key ∈ d.map Prod.fst then d.map (fun p => if p.1 = key then (key, v) else p)
  else d ++ [(key, v)]

/-- Python `d.update(new)`: insert every entry of `new` into `d`, in order
(later entries overwrite earlier ones with the same key). -/
def dictUpdate (d new : List (String × Json)) : List (String × Json) :=
  new.foldl (fun acc p => dictInsert acc p.1 p.2) d

/-- Python `math.ceil(n / k)` for natural `n` and positive `k`. -/
def ceilDiv (n k : Nat) : Nat := (n + k - 1) / k

/-- Decimal rendering of a natural number, the embedding of Python's `str(i)`
for a non-negative integer (most significant digit first). -/
def decimalChars (n : Nat) : List Char :=
  if n = 0 then ['0'] else ((Nat.digits 10 n).map Nat.digitChar).reverse

/-- Python's format spec `f"{i:03d}"`: the decimal rendering left-padded with
zeros to a width of at least three characters. -/
def pad3Chars (n : Nat) : List Char :=
  List.replicate (3 - (decimalChars n).length) '0' ++ decimalChars n

/-- The chunk file name `f"compatibility_chunk_{chunk_idx:03d}.json"`. -/
def chunkFileName (i : Nat) : String :=
  "compatibility_chunk_" ++ String.mk (pad3Chars i) ++ ".json"

/-- Exceptions raised by the Python code, under the specification's taxonomy:
`notFound` is `FileNotFoundError` (spec `NotFoundError`), `malformedInput` is
`json.JSONDecodeError` or the `AttributeError`/`TypeError` raised when a JSON
field has the wrong shape (spec `MalformedInputError`), and `zeroDivision` is
`ZeroDivisionError`. -/
inductive PyError where
  | notFound : PyError
  | malformedInput : PyError
  | zeroDivision : PyError
  deriving DecidableEq

/-- One chunk file (`chunk_data` in `split_compatibility_matrix`, lines
64–74). -/
structure ChunkFile where
  chunk_id : Nat
  start_index : Nat
  end_index : Nat
  licenses : List String
  compatibility : List (String × Json)

/-- One entry of the index's `chunks` sequence (lines 86–92). -/
structure ChunkDescriptor where
  chunk_id : Nat
  file : String
  start_license : Option String
  end_license : Option String
  license_count : Nat

/-- The index file (lines 49–56). -/
structure IndexFile where
  version : Json
  generated : Json
  total_licenses : Nat
  chunk_size : Nat
  num_chunks : Nat
  chunks : List ChunkDescriptor

/-- Everything a successful partition run writes: the index and the chunk
files keyed by file name, in ascending `chunk_id` order. -/
structure SplitResult where
  index : IndexFile
  files : List (String × ChunkFile)

/-- The state of the output directory, as `load_split_matrix` sees it. -/
structure Directory where
  files : List (String × ChunkFile)
  indexFile : Option IndexFile

/-- The document reconstructed by `load_split_matrix` (lines 128–133). -/
structure LoadedDoc where
  version : Json
  generated : Json
  total_licenses : Nat
  compatibility : List (String × Json)

/-- Line 37: `license_ids = sorted(list(compatibility.keys()))`.  Python's
`sorted` on strings is lexicographic ascending; any correct sort is an
equivalent embedding. -/
def sortedLicenseIds (compatibility : List (String × Json)) : List String :=
  List.insertionSort (· ≤ ·) (compatibility.map Prod.fst)

/-- Lines 59–74: the chunk built in iteration `chunk_idx`.  The lookup
`compatibility[license_id]` cannot raise `KeyError` because every element of
`chunk_licenses` is a key of `compatibility`; the `.getD Json.null` default is
therefore never taken on the code path the source executes. -/
def buildChunkFile (compatibility : List (String × Json)) (license_ids : List String)
    (chunk_size chunk_idx : Nat) : ChunkFile :=
  let start_idx := chunk_idx * chunk_size
  let end_idx := min ((chunk_idx + 1) * chunk_size) license_ids.length
  let chunk_licenses := (license_ids.drop start_idx).take (end_idx - start_idx)
  { chunk_id := chunk_idx
    start_index := start_idx
    end_index := end_idx
    licenses := chunk_licenses
    compatibility := chunk_licenses.map
      (fun license_id => (license_id, (dictGet compatibility license_id).getD Json.null)) }

/-- Lines 86–92: the descriptor appended to `index["chunks"]` in iteration
`chunk_idx`.  `chunk_licenses[0]`/`chunk_licenses[-1]` guarded by emptiness
become `head?`/`getLast?`. -/
def buildChunkDescriptor (license_ids : List String) (chunk_size chunk_idx : Nat) :
    ChunkDescriptor :=
  let start_idx := chunk_idx * chunk_size
  let end_idx := min ((chunk_idx + 1) * chunk_size) license_ids.length
  let chunk_licenses := (license_ids.drop start_idx).take (end_idx - start_idx)
  { chunk_id := chunk_idx
    file := chunkFileName chunk_idx
    start_license := chunk_licenses.head?
    end_license := chunk_licenses.getLast?
    license_count := chunk_licenses.length }

/-- The pure core of `split_compatibility_matrix` (lines 36–97): from the
document's `version`, `generated`, `compatibility` mapping and the chunk size,
the index and the chunk files it writes.  Python requires `chunk_size ≥ 1`
(`math.ceil(total / 0)` would raise `ZeroDivisionError`); the theorems below
assume `0 < chunk_size` accordingly. -/
def split_compatibility_matrix (version generated : Json)
    (compatibility : List (String × Json)) (chunk_size : Nat) : SplitResult :=
  let license_ids := sortedLicenseIds compatibility
  let total_licenses := license_ids.length
  let num_chunks := ceilDiv total_licenses chunk_size
  { index :=
      { version := version
        generated := generated
        total_licenses := total_licenses
        chunk_size := chunk_size
        num_chunks := num_chunks
        chunks := (List.range num_chunks).map (buildChunkDescriptor license_ids chunk_size) }
    files := (List.range num_chunks).map
      (fun i => (chunkFileName i, buildChunkFile compatibility license_ids chunk_size i)) }

/-- Lines 26–37: `json.load` followed by metadata extraction and
`compatibility.keys()`.  `input = none` models a file that is not valid JSON
(`json.load` raises, spec `MalformedInputError`); a non-object document makes
`data.get` raise `AttributeError`, and a non-object `compatibility` value makes
`.keys()` raise `AttributeError` — both mistyped-JSON failures, spec
`MalformedInputError`.  On success: the extracted `version` (default `"1.0"`),
`generated` (default `None`) and `compatibility` mapping (default `{}`). -/
def extractDocument (input : Option Json) :
    Except PyError (Json × Json × List (String × Json)) :=
  match input with
  | none => Except.error PyError.malformedInput
  | some (Json.obj data) =>
    match dictGet data "compatibility" with
    | none =>
        Except.ok ((dictGet data "version").getD (Json.str "1.0"),
          (dictGet data "generated").getD Json.null, [])
    | some (Json.obj m) =>
        Except.ok ((dictGet data "version").getD (Json.str "1.0"),
          (dictGet data "generated").getD Json.null, m)
    | some _ => Except.error PyError.malformedInput
  | some _ => Except.error PyError.malformedInput

/-- Lines 100–109: the post-write size report.  `sizes` abstracts
`os.path.getsize` on the written chunk files; the final average
`total_chunk_size / num_chunks` raises `ZeroDivisionError` when
`num_chunks = 0`. -/
def sizeReport (sizes : String → Nat) (index : IndexFile) : Except PyError Nat :=
  let total_chunk_size := (index.chunks.map (fun ci => sizes ci.file)).sum
  if index.num_chunks = 0 then Except.error PyError.zeroDivision
  else Except.ok (total_chunk_size / index.num_chunks)

/-- A whole `split_compatibility_matrix(...)` call into a fresh output
directory: first component is the directory state when the call ends (by
return or by exception), second is the call's outcome — `Except.ok` with the
reported average chunk size, or the exception it raises. -/
def split_compatibility_matrix_run (input : Option Json) (chunk_size : Nat)
    (sizes : String → Nat) : Directory × Except PyError Nat :=
  match extractDocument input with
  | Except.error e => ({ files := [], indexFile := none }, Except.error e)
  | Except.ok (version, generated, compatibility) =>
    let r := split_compatibility_matrix version generated compatibility chunk_size
    ({ files := r.files, indexFile := some r.index }, sizeReport sizes r.index)

/-- Lines 136–142: the chunk-loading loop of `load_split_matrix`.  A chunk
file named by the index but absent from the directory makes `open` raise
`FileNotFoundError` (spec `NotFoundError`). -/
def loadChunks (files : List (String × ChunkFile)) :
    List ChunkDescriptor → List (String × Json) → Except PyError (List (String × Json))
  | [], acc => Except.ok acc
  | ci :: rest, acc =>
    match dictGet files ci.file with
    | none => Except.error PyError.notFound
    | some chunk_data => loadChunks files rest (dictUpdate acc chunk_data.compatibility)

/-- Lines 112–144: `load_split_matrix`.  A directory without
`compatibility_index.json` makes `open` raise `FileNotFoundError` (spec
`NotFoundError`); otherwise the chunks named by the index are merged in listed
order into an initially empty `compatibility` mapping. -/
def load_split_matrix (dir : Directory) : Except PyError LoadedDoc :=
  match dir.indexFile with
  | none => Except.error PyError.notFound
  | some index =>
    match loadChunks dir.files index.chunks [] with
    | Except.error e => Except.error e
    | Except.ok compat =>
      Except.ok { version := index.version
                  generated := index.generated
                  total_licenses := index.total_licenses
                  compatibility := compat }

/-- A file-write event of a partition run. -/
inductive WriteEvent where
  | chunkWrite : String → WriteEvent
  | indexWrite : WriteEvent
  deriving DecidableEq

/-- The sequence of file writes a `split_compatibility_matrix` run performs,
in program order: one chunk-file write per loop iteration (line 80), then the
single index write (line 96).  The size-report reads that follow write
nothing. -/
def splitWriteTrace (compatibility : List (String × Json)) (chunk_size : Nat) :
    List WriteEvent :=
  let license_ids := sortedLicenseIds compatibility
  (List.range (ceilDiv license_ids.length chunk_size)).map
    (fun i => WriteEvent.chunkWrite (chunkFileName i)) ++ [WriteEvent.indexWrite]

/-- What one iteration of `monitor_progress` can observe: whether the progress
file exists and, if so, whether it reads and parses (`some (some j)`), or
raises on read/parse (`some none`); and the `*.yaml` count of the
`licenses/spdx` directory when that directory exists. -/
structure MonitorEnv where
  progressFile : Option (Option Json)
  spdxCount : Option Nat

/-- The line printed by one iteration of the monitor loop (lines 22, 29, 32,
34 of `monitor_progress.py`): the progress line (with the optional
file-count mismatch suffix), the transient error line, or the waiting line. -/
inductive MonitorMsg where
  | waiting : MonitorMsg
  | progressLine : Json → Json → Option Nat → MonitorMsg
  | errorLine : MonitorMsg

/-- Python values supporting `v[:19]`: strings and lists slice; `None`,
booleans, numbers and dicts raise `TypeError`. -/
def sliceableJson : Json → Bool
  | Json.str _ => true
  | Json.arr _ => true
  | _ => false

/-- Python `actual_count != total` for an `int` against a JSON value: numeric
comparison against numbers and booleans (`True == 1`, `False == 0`), unequal
against every other type; never raises. -/
def pyNatNe (n : Nat) : Json → Bool
  | Json.num m => decide (m ≠ (n : Int))
  | Json.bool b => decide ((cond b 1 0 : Int) ≠ (n : Int))
  | _ => true

/-- Lines 16–29: the body of the `try` block, given the progress file's read
result (`none` when `open`/`json.load` raises) and the spdx file count.  It
fails when the read/parse fails, when `progress` is not a dict (`.get` raises
`AttributeError`) and when the `last_updated` value does not slice
(`TypeError` at `last_updated[:19]`). -/
def monitorTryBody (raw : Option Json) (spdxCount : Option Nat) :
    Except Unit MonitorMsg :=
  match raw with
  | none => Except.error ()
  | some (Json.obj progress) =>
    let total := (dictGet progress "total_processed").getD (Json.num 0)
    let lastUpdated := (dictGet progress "last_updated").getD (Json.str "Unknown")
    if sliceableJson lastUpdated then
      match spdxCount with
      | none => Except.ok (MonitorMsg.progressLine total lastUpdated none)
      | some actual_count =>
        if pyNatNe actual_count total then
          Except.ok (MonitorMsg.progressLine total lastUpdated (some actual_count))
        else
          Except.ok (MonitorMsg.progressLine total lastUpdated none)
    else Except.error ()
  | some _ => Except.error ()

/-- Lines 13–34: one iteration of the polling loop.  The `except` clause
converts any failure of the body into the transient error line; an iteration
always produces a message. -/
def monitorIteration (env : MonitorEnv) : MonitorMsg :=
  match env.progressFile with
  | none => MonitorMsg.waiting
  | some raw =>
    match monitorTryBody raw env.spdxCount with
    | Except.error _ => MonitorMsg.errorLine
    | Except.ok msg => msg

/-- Line 36: `time.sleep(5)` — the fixed polling interval in seconds. -/
def monitorInterval : Nat := 5

/-- The first `n` iterations of the monitor loop run against the environment
history `envs`: each iteration emits its message and then sleeps for the
recorded interval. -/
def monitorTrace (envs : Nat → MonitorEnv) : Nat → List (MonitorMsg × Nat)
  | 0 => []
  | n + 1 => monitorTrace envs n ++ [(monitorIteration (envs n), monitorInterval)]

/-- The output directory after a successful partition run: the chunk files
written in the loop plus the index written last. -/
def writtenDirectory (r : SplitResult) : Directory :=
  { files := r.files, indexFile := some r.index }

lemma dictGet_map_self {β : Type} (f : String → β) :
    ∀ (l : List String) (x : String),
      dictGet (l.map (fun s => (s, f s))) x = if x ∈ l then some (f x) else none := by
  intro l
  induction l with
  | nil => intro x; simp [dictGet]
  | cons a t ih =>
    intro x
    by_cases h : a = x
    · subst h; simp [dictGet]
    · have h2 : ¬ x = a := fun h2 => h h2.symm
      simp only [List.map_cons, dictGet, if_neg h, ih x, List.mem_cons]
      simp [h2]

lemma dictGet_eq_none_iff {β : Type} :
    ∀ (d : List (String × β)) (x : String),
      dictGet d x = none ↔ x ∉ d.map Prod.fst := by
  intro d
  induction d with
  | nil => intro x; simp [dictGet]
  | cons p t ih =>
    intro x
    rcases p with ⟨k, v⟩
    by_cases h : k = x
    · subst h; simp [dictGet]
    · have h2 : ¬ x = k := fun h2 => h h2.symm
      simp [dictGet, if_neg h, ih x, h2]

lemma dictGet_isSome_of_mem {β : Type} {d : List (String × β)} {x : String}
    (h : x ∈ d.map Prod.fst) : ∃ v, dictGet d x = some v := by
  rcases h2 : dictGet d x with _ | v
  · exact absurd ((dictGet_eq_none_iff d x).mp h2) (not_not.mpr h)
  · exact ⟨v, rfl⟩

lemma dictInsert_of_not_mem {d : List (String × Json)} {key : String} (v : Json)
    (h : key ∉ d.map Prod.fst) : dictInsert d key v = d ++ [(key, v)] := by
  simp [dictInsert, h]

lemma dictUpdate_eq_append :
    ∀ (new d : List (String × Json)), (new.map Prod.fst).Nodup →
      (∀ x ∈ new.map Prod.fst, x ∉ d.map Prod.fst) →
      dictUpdate d new = d ++ new := by
  intro new
  induction new with
  | nil => intro d _ _; simp [dictUpdate]
  | cons p t ih =>
    intro d hnd hdisj
    rcases p with ⟨k, v⟩
    have hk : k ∉ d.map Prod.fst := hdisj k (by simp)
    have step : dictUpdate d ((k, v) :: t) = dictUpdate (d ++ [(k, v)]) t := by
      simp [dictUpdate, dictInsert_of_not_mem v hk]
    rw [step, ih (d ++ [(k, v)])]
    · simp
    · exact (List.nodup_cons.mp (by simpa using hnd)).2
    · intro x hx
      simp only [List.map_append, List.mem_append] at *
      have hxk : x ≠ k := by
        intro h
        subst h
        exact (List.nodup_cons.mp (by simpa using hnd)).1 hx
      refine fun hmem => ?_
      rcases hmem with hd | hs
      · exact hdisj x (by simp [hx]) hd
      · simp at hs
        exact hxk hs

lemma foldl_dictUpdate_flatten :
    ∀ (L : List (List (String × Json))) (acc : List (String × Json)),
      ((acc ++ L.flatten).map Prod.fst).Nodup →
      L.foldl dictUpdate acc = acc ++ L.flatten := by
  intro L
  induction L with
  | nil => intro acc _; simp
  | cons l t ih =>
    intro acc hnd
    have hnd' : (acc.map Prod.fst ++ (l.map Prod.fst ++ t.flatten.map Prod.fst)).Nodup := by
      simpa using hnd
    have hl : (l.map Prod.fst).Nodup := hnd'.of_append_right.of_append_left
    have hdisjoint :
        (acc.map Prod.fst).Disjoint (l.map Prod.fst ++ t.flatten.map Prod.fst) :=
      List.disjoint_of_nodup_append hnd'
    have hdisj : ∀ x ∈ l.map Prod.fst, x ∉ acc.map Prod.fst := by
      intro x hx hmem
      exact hdisjoint hmem (List.mem_append_left _ hx)
    have step : dictUpdate acc l = acc ++ l := dictUpdate_eq_append l acc hl hdisj
    have hnd2 : (((acc ++ l) ++ t.flatten).map Prod.fst).Nodup := by
      rw [List.append_assoc]
      simpa using hnd
    simp only [List.foldl_cons, step, List.flatten_cons]
    rw [ih (acc ++ l) hnd2, List.append_assoc]

lemma ceilDiv_zero_left (k : Nat) : ceilDiv 0 k = 0 := by
  unfold ceilDiv
  rcases k with _ | k
  · rfl
  · exact Nat.div_eq_of_lt (by omega)

lemma ceilDiv_rec {k : Nat} (hk : 0 < k) {n : Nat} (hn : 0 < n) :
    ceilDiv n k = ceilDiv (n - k) k + 1 := by
  have h1 : ceilDiv n k = (n - 1) / k + 1 := by
    unfold ceilDiv
    have h : n + k - 1 = (n - 1) + k := by omega
    rw [h, Nat.add_div_right _ hk]
  rcases le_or_lt n k with h | h
  · have h2 : n - k = 0 := by omega
    rw [h1, h2, ceilDiv_zero_left, Nat.div_eq_of_lt (by omega)]
  · have h2 : ceilDiv (n - k) k = (n - k - 1) / k + 1 := by
      unfold ceilDiv
      have h3 : n - k + k - 1 = (n - k - 1) + k := by omega
      rw [h3, Nat.add_div_right _ hk]
    rw [h1, h2]
    have h3 : n - 1 = (n - k - 1) + k := by omega
    rw [h3, Nat.add_div_right _ hk]

lemma ceilDiv_eq_zero_iff {k : Nat} (hk : 0 < k) {n : Nat} :
    ceilDiv n k = 0 ↔ n = 0 := by
  constructor
  · intro h
    by_contra hn
    rw [ceilDiv_rec hk (Nat.pos_of_ne_zero hn)] at h
    omega
  · intro h; subst h; exact ceilDiv_zero_left k

lemma mul_lt_of_lt_ceilDiv {k : Nat} (hk : 0 < k) :
    ∀ (i : Nat) {n : Nat}, i < ceilDiv n k → i * k < n := by
  intro i
  induction i with
  | zero =>
    intro n h
    have hn : n ≠ 0 := fun h0 => by rw [h0, ceilDiv_zero_left] at h; omega
    simpa using Nat.pos_of_ne_zero hn
  | succ j ih =>
    intro n h
    have hn : 0 < n := by
      by_contra h0
      have h1 : n = 0 := by omega
      rw [h1, ceilDiv_zero_left] at h; omega
    rw [ceilDiv_rec hk hn] at h
    have h2 : j < ceilDiv (n - k) k := by omega
    have h3 := ih h2
    have h4 : 0 < n - k := by
      rcases Nat.eq_zero_or_pos (n - k) with h0 | h0
      · rw [h0, ceilDiv_zero_left] at h2; omega
      · exact h0
    rw [Nat.succ_mul]
    omega

lemma le_ceilDiv_mul {k : Nat} (hk : 0 < k) : ∀ n : Nat, n ≤ ceilDiv n k * k := by
  intro n
  induction n using Nat.strong_induction_on with
  | _ n ih =>
    rcases Nat.eq_zero_or_pos n with h0 | h0
    · simp [h0, ceilDiv_zero_left]
    · rw [ceilDiv_rec hk h0, Nat.succ_mul]
      have := ih (n - k) (by omega)
      omega

lemma digitChar_inj :
    ∀ a, a < 10 → ∀ b, b < 10 → Nat.digitChar a = Nat.digitChar b → a = b := by
  decide

lemma map_digitChar_inj :
    ∀ (l1 l2 : List Nat), (∀ x ∈ l1, x < 10) → (∀ x ∈ l2, x < 10) →
      l1.map Nat.digitChar = l2.map Nat.digitChar → l1 = l2 := by
  intro l1
  induction l1 with
  | nil =>
    intro l2 _ _ h
    cases l2 with
    | nil => rfl
    | cons b s => simp at h
  | cons a t ih =>
    intro l2 h1 h2 h
    cases l2 with
    | nil => simp at h
    | cons b s =>
      simp only [List.map_cons, List.cons.injEq] at h
      have hab : a = b :=
        digitChar_inj a (h1 a (by simp)) b (h2 b (by simp)) h.1
      have hts : t = s :=
        ih s (fun x hx => h1 x (by simp [hx])) (fun x hx => h2 x (by simp [hx])) h.2
      rw [hab, hts]

lemma digits_all_lt (n : Nat) : ∀ d ∈ Nat.digits 10 n, d < 10 :=
  fun _ hd => Nat.digits_lt_base (by norm_num) hd

lemma decimalChars_inj {a b : Nat} (h : decimalChars a = decimalChars b) : a = b := by
  have key : ∀ m : Nat, m ≠ 0 → decimalChars m ≠ ['0'] := by
    intro m hm hcon
    have h1 : ((Nat.digits 10 m).map Nat.digitChar).reverse = ['0'] := by
      simpa [decimalChars, hm] using hcon
    have hrev : (Nat.digits 10 m).map Nat.digitChar = ['0'] := by
      have h2 := congrArg List.reverse h1
      simpa using h2
    have hdig : Nat.digits 10 m = [0] := by
      rcases hd : Nat.digits 10 m with _ | ⟨d, t⟩
      · rw [hd] at hrev; simp at hrev
      · rw [hd] at hrev
        simp only [List.map_cons, List.cons.injEq] at hrev
        have ht : t = [] := by
          rcases t with _ | ⟨e, s⟩
          · rfl
          · simp at hrev
        subst ht
        have hd10 : d < 10 := digits_all_lt m d (by rw [hd]; simp)
        have : d = 0 := digitChar_inj d hd10 0 (by norm_num) hrev.1
        rw [this]
    have := Nat.ofDigits_digits 10 m
    rw [hdig] at this
    simp [Nat.ofDigits] at this
    exact hm this.symm
  by_cases ha : a = 0 <;> by_cases hb : b = 0
  · rw [ha, hb]
  · exfalso
    have h0 : decimalChars a = ['0'] := by simp [decimalChars, ha]
    exact key b hb (h.symm.trans h0)
  · exfalso
    have h0 : decimalChars b = ['0'] := by simp [decimalChars, hb]
    exact key a ha (h.trans h0)
  · have hmaps : (Nat.digits 10 a).map Nat.digitChar = (Nat.digits 10 b).map Nat.digitChar := by
      have h2 : ((Nat.digits 10 a).map Nat.digitChar).reverse =
          ((Nat.digits 10 b).map Nat.digitChar).reverse := by
        simpa [decimalChars, ha, hb] using h
      have := congrArg List.reverse h2
      simpa using this
    have hdig : Nat.digits 10 a = Nat.digits 10 b :=
      map_digitChar_inj _ _ (digits_all_lt a) (digits_all_lt b) hmaps
    have h1 := Nat.ofDigits_digits 10 a
    have h2 := Nat.ofDigits_digits 10 b
    rw [← h1, ← h2, hdig]

lemma decimalChars_head_ne_zero {n : Nat} (hn : n ≠ 0) :
    ∃ c cs, decimalChars n = c :: cs ∧ c ≠ '0' := by
  have hne : Nat.digits 10 n ≠ [] := Nat.digits_ne_nil_iff_ne_zero.mpr hn
  rcases hrev : (Nat.digits 10 n).reverse with _ | ⟨d, t⟩
  · exact absurd (by simpa using congrArg List.reverse hrev) hne
  · refine ⟨Nat.digitChar d, t.map Nat.digitChar, ?_, ?_⟩
    · have hrw : decimalChars n = ((Nat.digits 10 n).map Nat.digitChar).reverse := by
        simp [decimalChars, hn]
      rw [hrw, ← List.map_reverse, hrev, List.map_cons]
    · have hd_last : (Nat.digits 10 n).getLast? = some d := by
        rw [← List.head?_reverse, hrev]
        rfl
      have hd_ne : d ≠ 0 := by
        have hgl := Nat.getLast_digit_ne_zero 10 hn
        rw [List.getLast?_eq_getLast _ (Nat.digits_ne_nil_iff_ne_zero.mpr hn)] at hd_last
        intro h0
        apply hgl
        have := Option.some.inj hd_last
        rw [this, h0]
      have hd10 : d < 10 := by
        apply digits_all_lt n
        rw [← List.mem_reverse, hrev]
        simp
      intro hc
      exact hd_ne (digitChar_inj d hd10 0 (by norm_num) (by rw [hc]; rfl))

lemma dropWhile_replicate_zero (l : List Char) (c : Char) (cs : List Char)
    (hcons : l = c :: cs) (hc : c ≠ '0') :
    ∀ j : Nat, (List.replicate j '0' ++ l).dropWhile (fun x => x == '0') = l := by
  intro j
  induction j with
  | zero =>
    subst hcons
    simp [List.dropWhile_cons, hc]
  | succ m ih =>
    rw [List.replicate_succ, List.cons_append, List.dropWhile_cons]
    simpa using ih

lemma pad3Chars_inj {a b : Nat} (h : pad3Chars a = pad3Chars b) : a = b := by
  have hdw := congrArg (List.dropWhile (fun x => x == '0')) h
  by_cases ha : a = 0 <;> by_cases hb : b = 0
  · rw [ha, hb]
  · exfalso
    obtain ⟨c, cs, hcons, hc⟩ := decimalChars_head_ne_zero hb
    rw [show pad3Chars a = ['0', '0', '0'] by rw [ha]; rfl] at hdw
    rw [pad3Chars, dropWhile_replicate_zero _ c cs hcons hc] at hdw
    rw [hcons] at hdw
    simp at hdw
  · exfalso
    obtain ⟨c, cs, hcons, hc⟩ := decimalChars_head_ne_zero ha
    rw [show pad3Chars b = ['0', '0', '0'] by rw [hb]; rfl] at hdw
    rw [pad3Chars, dropWhile_replicate_zero _ c cs hcons hc] at hdw
    rw [hcons] at hdw
    simp at hdw
  · obtain ⟨c, cs, hcons, hc⟩ := decimalChars_head_ne_zero ha
    obtain ⟨c2, cs2, hcons2, hc2⟩ := decimalChars_head_ne_zero hb
    rw [pad3Chars, pad3Chars, dropWhile_replicate_zero _ c cs hcons hc,
      dropWhile_replicate_zero _ c2 cs2 hcons2 hc2] at hdw
    exact decimalChars_inj hdw

lemma chunkFileName_inj {i j : Nat} (h : chunkFileName i = chunkFileName j) : i = j := by
  apply pad3Chars_inj
  have hdata := congrArg String.data h
  have hsplit : ∀ x : List Char,
      (("compatibility_chunk_" ++ String.mk x ++ ".json").data) =
        ("compatibility_chunk_".data ++ x) ++ ".json".data := fun _ => rfl
  rw [chunkFileName, chunkFileName, hsplit, hsplit] at hdata
  exact List.append_cancel_left (List.append_cancel_right hdata)

lemma chunkSlice_eq_take {α : Type} (ids : List α) (k i : Nat) :
    (ids.drop (i * k)).take (min ((i + 1) * k) ids.length - i * k) =
      (ids.drop (i * k)).take k := by
  rcases le_or_lt ((i + 1) * k) ids.length with h | h
  · rw [min_eq_left h]
    have h2 : (i + 1) * k - i * k = k := by rw [Nat.succ_mul]; omega
    rw [h2]
  · rw [min_eq_right (le_of_lt h)]
    have hlen : (ids.drop (i * k)).length = ids.length - i * k := List.length_drop _ _
    rw [Nat.succ_mul] at h
    rw [List.take_of_length_le (by rw [hlen]), List.take_of_length_le (by rw [hlen]; omega)]

lemma flatten_take_chunks {α : Type} {k : Nat} (hk : 0 < k) :
    ∀ (n : Nat) (l : List α), l.length = n →
      ((List.range (ceilDiv n k)).map (fun i => (l.drop (i * k)).take k)).flatten = l := by
  intro n
  induction n using Nat.strong_induction_on with
  | _ n ih =>
    intro l hl
    rcases Nat.eq_zero_or_pos n with h0 | h0
    · subst h0
      rw [ceilDiv_zero_left]
      simp only [List.range_zero, List.map_nil, List.flatten_nil]
      exact (List.length_eq_zero.mp hl).symm
    · rw [ceilDiv_rec hk h0, List.range_succ_eq_map, List.map_cons, List.flatten_cons,
        List.map_map]
      have htail : (List.range (ceilDiv (n - k) k)).map
            ((fun i => (l.drop (i * k)).take k) ∘ Nat.succ) =
          (List.range (ceilDiv (n - k) k)).map (fun i => ((l.drop k).drop (i * k)).take k) := by
        apply List.map_eq_map_iff.mpr
        intro i _
        simp only [Function.comp_apply]
        rw [List.drop_drop, Nat.succ_mul, Nat.add_comm]
      rw [htail, ih (n - k) (by omega) (l.drop k) (by rw [List.length_drop, hl])]
      simp only [Nat.zero_mul, List.drop_zero]
      exact List.take_append_drop k l

lemma buildChunkFile_licenses (compatibility : List (String × Json))
    (ids : List String) (k i : Nat) :
    (buildChunkFile compatibility ids k i).licenses = (ids.drop (i * k)).take k := by
  simp only [buildChunkFile]
  exact chunkSlice_eq_take ids k i

lemma buildChunkFile_compat (compatibility : List (String × Json))
    (ids : List String) (k i : Nat) :
    (buildChunkFile compatibility ids k i).compatibility =
      ((ids.drop (i * k)).take k).map
        (fun license_id => (license_id, (dictGet compatibility license_id).getD Json.null)) := by
  simp only [buildChunkFile]
  rw [chunkSlice_eq_take ids k i]

lemma buildChunkDescriptor_eq (ids : List String) (k i : Nat) :
    buildChunkDescriptor ids k i =
      { chunk_id := i
        file := chunkFileName i
        start_license := ((ids.drop (i * k)).take k).head?
        end_license := ((ids.drop (i * k)).take k).getLast?
        license_count := ((ids.drop (i * k)).take k).length } := by
  simp only [buildChunkDescriptor]
  rw [chunkSlice_eq_take ids k i]

lemma sortedLicenseIds_perm (compatibility : List (String × Json)) :
    (sortedLicenseIds compatibility).Perm (compatibility.map Prod.fst) :=
  List.perm_insertionSort _ _

lemma sortedLicenseIds_sorted (compatibility : List (String × Json)) :
    (sortedLicenseIds compatibility).Sorted (· ≤ ·) :=
  List.sorted_insertionSort _ _

lemma sortedLicenseIds_nodup {compatibility : List (String × Json)}
    (h : (compatibility.map Prod.fst).Nodup) : (sortedLicenseIds compatibility).Nodup :=
  ((sortedLicenseIds_perm compatibility).nodup_iff).mpr h

lemma sortedLicenseIds_length (compatibility : List (String × Json)) :
    (sortedLicenseIds compatibility).length = compatibility.length :=
  ((sortedLicenseIds_perm compatibility).length_eq).trans (List.length_map _ _)

lemma files_map_licenses (v g : Json) (compatibility : List (String × Json)) {k : Nat}
    (hk : 0 < k) :
    (((split_compatibility_matrix v g compatibility k).files.map
        (fun p => p.2.licenses)).flatten) = sortedLicenseIds compatibility := by
  simp only [split_compatibility_matrix, List.map_map]
  have h1 : ∀ i ∈ List.range (ceilDiv (sortedLicenseIds compatibility).length k),
      ((fun (p : String × ChunkFile) => p.2.licenses) ∘
        (fun i => (chunkFileName i, buildChunkFile compatibility (sortedLicenseIds compatibility) k i))) i =
      ((sortedLicenseIds compatibility).drop (i * k)).take k := by
    intro i _
    simp only [Function.comp_apply]
    exact buildChunkFile_licenses _ _ _ _
  rw [List.map_eq_map_iff.mpr h1, flatten_take_chunks hk _ _ rfl]

lemma split_num_chunks (v g : Json) (compatibility : List (String × Json)) (k : Nat) :
    (split_compatibility_matrix v g compatibility k).index.num_chunks =
      ceilDiv compatibility.length k := by
  simp only [split_compatibility_matrix]
  rw [sortedLicenseIds_length]

lemma split_chunks (v g : Json) (compatibility : List (String × Json)) (k : Nat) :
    (split_compatibility_matrix v g compatibility k).index.chunks =
      (List.range (ceilDiv (sortedLicenseIds compatibility).length k)).map
        (buildChunkDescriptor (sortedLicenseIds compatibility) k) := rfl

lemma split_files (v g : Json) (compatibility : List (String × Json)) (k : Nat) :
    (split_compatibility_matrix v g compatibility k).files =
      (List.range (ceilDiv (sortedLicenseIds compatibility).length k)).map
        (fun i => (chunkFileName i,
          buildChunkFile compatibility (sortedLicenseIds compatibility) k i)) := rfl

lemma slice_length_of_mid {ids : List String} {k i : Nat} (hk : 0 < k)
    (h : i + 1 < ceilDiv ids.length k) :
    ((ids.drop (i * k)).take k).length = k := by
  have h2 : (i + 1) * k < ids.length := mul_lt_of_lt_ceilDiv hk (i + 1) h
  rw [Nat.succ_mul] at h2
  simp only [List.length_take, List.length_drop]
  omega

lemma slice_length_of_last {ids : List String} {k : Nat} (hk : 0 < k)
    (hpos : 0 < ids.length) :
    ((ids.drop ((ceilDiv ids.length k - 1) * k)).take k).length =
      ids.length - (ceilDiv ids.length k - 1) * k := by
  have hnc : 0 < ceilDiv ids.length k := by
    rcases Nat.eq_zero_or_pos (ceilDiv ids.length k) with h0 | h0
    · exact absurd ((ceilDiv_eq_zero_iff hk).mp h0) (by omega)
    · exact h0
  have h1 : (ceilDiv ids.length k - 1) * k < ids.length :=
    mul_lt_of_lt_ceilDiv hk _ (by omega)
  have h2 : ids.length ≤ ceilDiv ids.length k * k := le_ceilDiv_mul hk _
  have h3 : ceilDiv ids.length k * k = (ceilDiv ids.length k - 1) * k + k := by
    have h4 : ceilDiv ids.length k = (ceilDiv ids.length k - 1) + 1 := by omega
    nth_rewrite 1 [h4]
    exact Nat.succ_mul _ _
  simp only [List.length_take, List.length_drop]
  omega

/-- Claim C2 — Partition completeness: for every input document and chunk
size `k ≥ 1`, the concatenation of the chunk files' `licenses` sequences in
ascending `chunk_id` order is sorted ascending, is a permutation of the
document's key list (no omission), and has no duplicate (no key in two
chunks); hence it equals the lexicographically sorted list of the document's
keys. -/
theorem partition_completeness (v g : Json) (compatibility : List (String × Json))
    {k : Nat} (hk : 0 < k) (hnd : (compatibility.map Prod.fst).Nodup) :
    (((split_compatibility_matrix v g compatibility k).files.map
        (fun p => p.2.licenses)).flatten).Sorted (· ≤ ·) ∧
    (((split_compatibility_matrix v g compatibility k).files.map
        (fun p => p.2.licenses)).flatten).Perm (compatibility.map Prod.fst) ∧
    (((split_compatibility_matrix v g compatibility k).files.map
        (fun p => p.2.licenses)).flatten).Nodup := by
  rw [files_map_licenses v g compatibility hk]
  exact ⟨sortedLicenseIds_sorted _, sortedLicenseIds_perm _, sortedLicenseIds_nodup hnd⟩

/-- Witness for C2 at the specification's worked example
(`{"MIT", "Apache-2.0", "GPL-3.0"}`, chunk size 2). -/
theorem partition_completeness_witness :
    (((split_compatibility_matrix Json.null Json.null
        [("MIT", Json.null), ("Apache-2.0", Json.null), ("GPL-3.0", Json.null)] 2).files.map
        (fun p => p.2.licenses)).flatten).Sorted (· ≤ ·) ∧
    (((split_compatibility_matrix Json.null Json.null
        [("MIT", Json.null), ("Apache-2.0", Json.null), ("GPL-3.0", Json.null)] 2).files.map
        (fun p => p.2.licenses)).flatten).Perm
      ([("MIT", Json.null), ("Apache-2.0", Json.null), ("GPL-3.0", Json.null)].map Prod.fst) ∧
    (((split_compatibility_matrix Json.null Json.null
        [("MIT", Json.null), ("Apache-2.0", Json.null), ("GPL-3.0", Json.null)] 2).files.map
        (fun p => p.2.licenses)).flatten).Nodup :=
  partition_completeness Json.null Json.null _ (by decide) (by decide)

/-- Claim C3 — Chunk-count arithmetic: with `N` the number of compatibility
keys and `k ≥ 1`, the run produces `num_chunks = ceil(N / k)` chunk
descriptors; every chunk but possibly the last has exactly `k` licenses; the
last chunk has `N - k*(num_chunks - 1)` licenses, nonzero whenever `N > 0`;
and the `license_count` fields sum to `N`. -/
theorem chunk_count_arithmetic (v g : Json) (compatibility : List (String × Json))
    {k : Nat} (hk : 0 < k) :
    (split_compatibility_matrix v g compatibility k).index.num_chunks =
      ceilDiv compatibility.length k ∧
    (split_compatibility_matrix v g compatibility k).index.chunks.length =
      ceilDiv compatibility.length k ∧
    (∀ i d, i + 1 < ceilDiv compatibility.length k →
      ((split_compatibility_matrix v g compatibility k).index.chunks)[i]? = some d →
      d.license_count = k) ∧
    (0 < compatibility.length → ∃ d,
      (split_compatibility_matrix v g compatibility k).index.chunks.getLast? = some d ∧
      d.license_count =
        compatibility.length - k * (ceilDiv compatibility.length k - 1) ∧
      0 < d.license_count) ∧
    ((split_compatibility_matrix v g compatibility k).index.chunks.map
      (fun d => d.license_count)).sum = compatibility.length := by
  have hn := sortedLicenseIds_length compatibility
  refine ⟨split_num_chunks v g compatibility k, ?_, ?_, ?_, ?_⟩
  · rw [split_chunks, List.length_map, List.length_range, hn]
  · intro i d hmid hget
    rw [split_chunks, List.getElem?_map,
      List.getElem?_range (by rw [hn]; omega)] at hget
    simp only [Option.map_some'] at hget
    rw [← Option.some.inj hget, buildChunkDescriptor_eq]
    exact slice_length_of_mid hk (by rw [hn]; omega)
  · intro hpos
    have hpos' : 0 < (sortedLicenseIds compatibility).length := by omega
    have hnc : 0 < ceilDiv (sortedLicenseIds compatibility).length k := by
      rcases Nat.eq_zero_or_pos (ceilDiv (sortedLicenseIds compatibility).length k)
        with h0 | h0
      · exact absurd ((ceilDiv_eq_zero_iff hk).mp h0) (by omega)
      · exact h0
    refine ⟨buildChunkDescriptor (sortedLicenseIds compatibility) k
      (ceilDiv (sortedLicenseIds compatibility).length k - 1), ?_, ?_, ?_⟩
    · rw [split_chunks]
      have hsucc : ceilDiv (sortedLicenseIds compatibility).length k =
          (ceilDiv (sortedLicenseIds compatibility).length k - 1) + 1 := by omega
      rw [hsucc, List.range_succ, List.map_append, List.map_cons, List.map_nil,
        List.getLast?_concat]
      simp
    · rw [buildChunkDescriptor_eq]
      show (((sortedLicenseIds compatibility).drop _).take k).length = _
      rw [slice_length_of_last hk hpos', hn, Nat.mul_comm]
    · rw [buildChunkDescriptor_eq]
      show 0 < (((sortedLicenseIds compatibility).drop _).take k).length
      rw [slice_length_of_last hk hpos']
      have h1 : (ceilDiv (sortedLicenseIds compatibility).length k - 1) * k <
          (sortedLicenseIds compatibility).length :=
        mul_lt_of_lt_ceilDiv hk _ (by omega)
      omega
  · rw [split_chunks, List.map_map]
    have h1 : ∀ i ∈ List.range (ceilDiv (sortedLicenseIds compatibility).length k),
        ((fun d => d.license_count) ∘ buildChunkDescriptor (sortedLicenseIds compatibility) k) i =
        (List.length ∘ fun i => ((sortedLicenseIds compatibility).drop (i * k)).take k) i := by
      intro i _
      simp only [Function.comp_apply, buildChunkDescriptor_eq]
    rw [List.map_eq_map_iff.mpr h1, ← List.map_map, ← List.length_flatten,
      flatten_take_chunks hk _ _ rfl, hn]

/-- Witness for C3 on a four-key document with chunk size 3 (one full chunk
and a short last chunk). -/
theorem chunk_count_arithmetic_witness :
    (split_compatibility_matrix Json.null Json.null
      [("a", Json.null), ("b", Json.null), ("c", Json.null), ("d", Json.null)] 3).index.num_chunks =
      ceilDiv 4 3 ∧
    (split_compatibility_matrix Json.null Json.null
      [("a", Json.null), ("b", Json.null), ("c", Json.null), ("d", Json.null)] 3).index.chunks.length =
      ceilDiv 4 3 ∧
    (∀ i d, i + 1 < ceilDiv 4 3 →
      ((split_compatibility_matrix Json.null Json.null
        [("a", Json.null), ("b", Json.null), ("c", Json.null), ("d", Json.null)] 3).index.chunks)[i]? = some d →
      d.license_count = 3) ∧
    (0 < 4 → ∃ d,
      (split_compatibility_matrix Json.null Json.null
        [("a", Json.null), ("b", Json.null), ("c", Json.null), ("d", Json.null)] 3).index.chunks.getLast? = some d ∧
      d.license_count = 4 - 3 * (ceilDiv 4 3 - 1) ∧
      0 < d.license_count) ∧
    ((split_compatibility_matrix Json.null Json.null
      [("a", Json.null), ("b", Json.null), ("c", Json.null), ("d", Json.null)] 3).index.chunks.map
      (fun d => d.license_count)).sum = 4 :=
  chunk_count_arithmetic Json.null Json.null
    [("a", Json.null), ("b", Json.null), ("c", Json.null), ("d", Json.null)] (by decide)

/-- Claim C4 — Determinism: the partition is a pure function of the sorted
key list.  Any two documents whose key lists are permutations of each other
(in particular, the same document with different key insertion orders, or two
runs on the same input) produce an identical index — hence identical
`start_license`/`end_license` values — and identical chunk boundaries
(`chunk_id`, `start_index`, `end_index`, `licenses`) per chunk file. -/
theorem split_deterministic (v g : Json) (c1 c2 : List (String × Json)) (k : Nat)
    (hperm : (c1.map Prod.fst).Perm (c2.map Prod.fst)) :
    (split_compatibility_matrix v g c1 k).index =
      (split_compatibility_matrix v g c2 k).index ∧
    (split_compatibility_matrix v g c1 k).files.map
        (fun p => (p.1, p.2.chunk_id, p.2.start_index, p.2.end_index, p.2.licenses)) =
      (split_compatibility_matrix v g c2 k).files.map
        (fun p => (p.1, p.2.chunk_id, p.2.start_index, p.2.end_index, p.2.licenses)) := by
  have hids : sortedLicenseIds c1 = sortedLicenseIds c2 :=
    List.eq_of_perm_of_sorted
      (((sortedLicenseIds_perm c1).trans hperm).trans (sortedLicenseIds_perm c2).symm)
      (sortedLicenseIds_sorted c1) (sortedLicenseIds_sorted c2)
  constructor
  · simp only [split_compatibility_matrix, hids]
  · simp only [split_files, hids, List.map_map]
    apply List.map_eq_map_iff.mpr
    intro i _
    simp only [Function.comp_apply, buildChunkFile]

/-- Witness for C4: the same two-key mapping in two insertion orders and with
different values. -/
theorem split_deterministic_witness :
    (split_compatibility_matrix Json.null Json.null
        [("b", Json.num 1), ("a", Json.num 2)] 1).index =
      (split_compatibility_matrix Json.null Json.null
        [("a", Json.null), ("b", Json.null)] 1).index ∧
    (split_compatibility_matrix Json.null Json.null
        [("b", Json.num 1), ("a", Json.num 2)] 1).files.map
        (fun p => (p.1, p.2.chunk_id, p.2.start_index, p.2.end_index, p.2.licenses)) =
      (split_compatibility_matrix Json.null Json.null
        [("a", Json.null), ("b", Json.null)] 1).files.map
        (fun p => (p.1, p.2.chunk_id, p.2.start_index, p.2.end_index, p.2.licenses)) :=
  split_deterministic Json.null Json.null _ _ 1 (by decide)

/-- Claim C5 — Empty input: when the input document's compatibility mapping is
empty, the written index has `num_chunks = 0` and an empty `chunks` sequence,
no chunk file is written, and `load_split_matrix` on the written directory
reconstructs a document with an empty compatibility mapping. -/
theorem empty_input (input : Option Json) (v g : Json) {k : Nat} (hk : 0 < k)
    (sizes : String → Nat)
    (hext : extractDocument input = Except.ok (v, g, [])) :
    ∃ idx, (split_compatibility_matrix_run input k sizes).1.indexFile = some idx ∧
      idx.num_chunks = 0 ∧
      idx.chunks = [] ∧
      (split_compatibility_matrix_run input k sizes).1.files = [] ∧
      load_split_matrix (split_compatibility_matrix_run input k sizes).1 =
        Except.ok { version := v, generated := g, total_licenses := 0,
                    compatibility := [] } := by
  have h0 : ceilDiv (0 : Nat) k = 0 := ceilDiv_zero_left k
  have hsorted : sortedLicenseIds [] = [] := rfl
  refine ⟨(split_compatibility_matrix v g [] k).index, ?_, ?_, ?_, ?_, ?_⟩
  · simp only [split_compatibility_matrix_run, hext]
  · simp only [split_compatibility_matrix, hsorted, List.length_nil, h0]
  · simp only [split_compatibility_matrix, hsorted, List.length_nil, h0,
      List.range_zero, List.map_nil]
  · simp only [split_compatibility_matrix_run, hext, split_compatibility_matrix,
      hsorted, List.length_nil, h0, List.range_zero, List.map_nil]
  · simp only [split_compatibility_matrix_run, hext, split_compatibility_matrix,
      hsorted, List.length_nil, h0, List.range_zero, List.map_nil,
      load_split_matrix, loadChunks]

/-- Witness for C5: the empty JSON object document (no `compatibility`
field, hence an empty mapping), chunk size 1. -/
theorem empty_input_witness :
    ∃ idx, (split_compatibility_matrix_run (some (Json.obj [])) 1
        (fun _ => 0)).1.indexFile = some idx ∧
      idx.num_chunks = 0 ∧
      idx.chunks = [] ∧
      (split_compatibility_matrix_run (some (Json.obj [])) 1 (fun _ => 0)).1.files = [] ∧
      load_split_matrix (split_compatibility_matrix_run (some (Json.obj [])) 1
          (fun _ => 0)).1 =
        Except.ok { version := Json.str "1.0", generated := Json.null,
                    total_licenses := 0, compatibility := [] } :=
  empty_input (some (Json.obj [])) (Json.str "1.0") Json.null (by decide) (fun _ => 0) rfl

/-- Claim C6 — Implicit: on an empty compatibility mapping the call writes the
index (with `num_chunks = 0`, `chunks = []`) and no chunk file, and then its
size-reporting step divides `total_chunk_size` by `num_chunks = 0`, raising an
unguarded `ZeroDivisionError`: the call never returns normally. -/
theorem empty_input_zero_division (input : Option Json) (v g : Json) {k : Nat}
    (hk : 0 < k) (sizes : String → Nat)
    (hext : extractDocument input = Except.ok (v, g, [])) :
    (split_compatibility_matrix_run input k sizes).2 =
      Except.error PyError.zeroDivision ∧
    ∃ idx, (split_compatibility_matrix_run input k sizes).1.indexFile = some idx ∧
      idx.num_chunks = 0 ∧ idx.chunks = [] ∧
      (split_compatibility_matrix_run input k sizes).1.files = [] := by
  have h0 : ceilDiv (0 : Nat) k = 0 := ceilDiv_zero_left k
  have hsorted : sortedLicenseIds [] = [] := rfl
  refine ⟨?_, (split_compatibility_matrix v g [] k).index, ?_, ?_, ?_, ?_⟩
  · simp only [split_compatibility_matrix_run, hext, split_compatibility_matrix,
      sizeReport, hsorted, List.length_nil, h0, List.range_zero, List.map_nil]
    rfl
  · simp only [split_compatibility_matrix_run, hext]
  · simp only [split_compatibility_matrix, hsorted, List.length_nil, h0]
  · simp only [split_compatibility_matrix, hsorted, List.length_nil, h0,
      List.range_zero, List.map_nil]
  · simp only [split_compatibility_matrix_run, hext, split_compatibility_matrix,
      hsorted, List.length_nil, h0, List.range_zero, List.map_nil]

/-- Witness for C6: the empty JSON object document, chunk size 1. -/
theorem empty_input_zero_division_witness :
    (split_compatibility_matrix_run (some (Json.obj [])) 1 (fun _ => 0)).2 =
      Except.error PyError.zeroDivision ∧
    ∃ idx, (split_compatibility_matrix_run (some (Json.obj [])) 1
        (fun _ => 0)).1.indexFile = some idx ∧
      idx.num_chunks = 0 ∧ idx.chunks = [] ∧
      (split_compatibility_matrix_run (some (Json.obj [])) 1 (fun _ => 0)).1.files = [] :=
  empty_input_zero_division (some (Json.obj [])) (Json.str "1.0") Json.null (by decide)
    (fun _ => 0) rfl

/-- Claim C9 — Write ordering: in every run, the single index write occurs in
the write trace strictly after every chunk-file write, and every chunk file
named by the written index is written at some position before the index
write.  Hence the index is never on disk (for this run) while one of the
chunk files it describes has not been written. -/
theorem index_written_after_chunks (compatibility : List (String × Json)) {k : Nat}
    (hk : 0 < k) :
    ∃ j : Nat, (splitWriteTrace compatibility k)[j]? = some WriteEvent.indexWrite ∧
      (∀ m f, (splitWriteTrace compatibility k)[m]? =
        some (WriteEvent.chunkWrite f) → m < j) ∧
      ∀ v g, ∀ ci ∈ (split_compatibility_matrix v g compatibility k).index.chunks,
        ∃ m : Nat, m < j ∧ (splitWriteTrace compatibility k)[m]? =
          some (WriteEvent.chunkWrite ci.file) := by
  refine ⟨ceilDiv (sortedLicenseIds compatibility).length k, ?_, ?_, ?_⟩
  · rw [splitWriteTrace]
    rw [List.getElem?_append_right (by simp)]
    simp
  · intro m f hm
    by_contra hcon
    have hge : ceilDiv (sortedLicenseIds compatibility).length k ≤ m := by omega
    rw [splitWriteTrace] at hm
    rw [List.getElem?_append_right (by simpa using hge)] at hm
    rcases Nat.lt_or_ge (m - ceilDiv (sortedLicenseIds compatibility).length k) 1 with h1 | h1
    · have h2 : m - ceilDiv (sortedLicenseIds compatibility).length k = 0 := by omega
      rw [List.length_map, List.length_range, h2] at hm
      simp at hm
    · rw [List.length_map, List.length_range] at hm
      rw [List.getElem?_eq_none (by simpa using h1)] at hm
      exact Option.noConfusion hm
  · intro v g ci hci
    rw [split_chunks] at hci
    rcases List.mem_map.mp hci with ⟨i, hi, hdesc⟩
    refine ⟨i, by simpa using List.mem_range.mp hi, ?_⟩
    rw [splitWriteTrace]
    rw [List.getElem?_append_left (by simpa using List.mem_range.mp hi)]
    rw [List.getElem?_map, List.getElem?_range (List.mem_range.mp hi)]
    rw [← hdesc]
    rfl

/-- Witness for C9: a one-key document with chunk size 1. -/
theorem index_written_after_chunks_witness :
    ∃ j : Nat, (splitWriteTrace [("a", Json.null)] 1)[j]? = some WriteEvent.indexWrite ∧
      (∀ m f, (splitWriteTrace [("a", Json.null)] 1)[m]? =
        some (WriteEvent.chunkWrite f) → m < j) ∧
      ∀ v g, ∀ ci ∈ (split_compatibility_matrix v g [("a", Json.null)] 1).index.chunks,
        ∃ m : Nat, m < j ∧ (splitWriteTrace [("a", Json.null)] 1)[m]? =
          some (WriteEvent.chunkWrite ci.file) :=
  index_written_after_chunks [("a", Json.null)] (by decide)

/-- Claim C7 — Malformed input: loading fails with `MalformedInputError`
whenever the input file is not valid structured data (`json.load` raises), and
whenever a `compatibility` field is present but its value is not a mapping
(`compatibility.keys()` raises on a non-dict). -/
theorem malformed_input_error (input : Option Json) :
    (input = none → extractDocument input = Except.error PyError.malformedInput) ∧
    (∀ data w, input = some (Json.obj data) →
      dictGet data "compatibility" = some w → (∀ m, w ≠ Json.obj m) →
      extractDocument input = Except.error PyError.malformedInput) := by
  constructor
  · intro h
    rw [h]
    rfl
  · intro data w hin hget hnotobj
    rw [hin]
    cases w with
    | obj m => exact absurd rfl (hnotobj m)
    | null => simp only [extractDocument, hget]
    | bool b => simp only [extractDocument, hget]
    | num n => simp only [extractDocument, hget]
    | str s => simp only [extractDocument, hget]
    | arr l => simp only [extractDocument, hget]

/-- Witness for C7: an unparseable input, and a document whose
`compatibility` field holds the number 3. -/
theorem malformed_input_error_witness :
    extractDocument none = Except.error PyError.malformedInput ∧
    extractDocument (some (Json.obj [("compatibility", Json.num 3)])) =
      Except.error PyError.malformedInput :=
  ⟨(malformed_input_error none).1 rfl,
    (malformed_input_error (some (Json.obj [("compatibility", Json.num 3)]))).2
      [("compatibility", Json.num 3)] (Json.num 3) rfl rfl
      (fun m h => Json.noConfusion h)⟩

lemma loadChunks_error_of_missing (files : List (String × ChunkFile)) :
    ∀ (chunks : List ChunkDescriptor) (acc : List (String × Json)),
      (∃ ci ∈ chunks, dictGet files ci.file = none) →
      loadChunks files chunks acc = Except.error PyError.notFound := by
  intro chunks
  induction chunks with
  | nil => intro acc h; simp at h
  | cons c rest ih =>
    intro acc h
    rcases h with ⟨ci, hmem, hnone⟩
    rcases hc : dictGet files c.file with _ | cf
    · simp only [loadChunks, hc]
    · simp only [loadChunks, hc]
      apply ih
      refine ⟨ci, ?_, hnone⟩
      rcases List.mem_cons.mp hmem with h1 | h1
      · subst h1
        rw [hc] at hnone
        exact Option.noConfusion hnone
      · exact h1

/-- Claim C8 — Missing index / missing chunk: `load_split_matrix` fails with
`NotFoundError` on a directory with no `compatibility_index.json`, and
likewise when any chunk file referenced by the index is absent from the
directory. -/
theorem load_missing_not_found (dir : Directory) :
    (dir.indexFile = none → load_split_matrix dir = Except.error PyError.notFound) ∧
    (∀ idx ci, dir.indexFile = some idx → ci ∈ idx.chunks →
      dictGet dir.files ci.file = none →
      load_split_matrix dir = Except.error PyError.notFound) := by
  constructor
  · intro h
    simp only [load_split_matrix, h]
  · intro idx ci hidx hmem hnone
    simp only [load_split_matrix, hidx]
    rw [loadChunks_error_of_missing dir.files idx.chunks [] ⟨ci, hmem, hnone⟩]

/-- Witness for C8: an empty directory (no index), and a directory holding an
index that names a chunk file the directory does not contain. -/
theorem load_missing_not_found_witness :
    load_split_matrix { files := [], indexFile := none } =
      Except.error PyError.notFound ∧
    load_split_matrix
        { files := []
          indexFile := some
            { version := Json.null, generated := Json.null, total_licenses := 1,
              chunk_size := 1, num_chunks := 1,
              chunks := [{ chunk_id := 0, file := "compatibility_chunk_000.json",
                           start_license := some "a", end_license := some "a",
                           license_count := 1 }] } } =
      Except.error PyError.notFound :=
  ⟨(load_missing_not_found { files := [], indexFile := none }).1 rfl,
    (load_missing_not_found _).2
      { version := Json.null, generated := Json.null, total_licenses := 1,
        chunk_size := 1, num_chunks := 1,
        chunks := [{ chunk_id := 0, file := "compatibility_chunk_000.json",
                     start_license := some "a", end_license := some "a",
                     license_count := 1 }] }
      { chunk_id := 0, file := "compatibility_chunk_000.json",
        start_license := some "a", end_license := some "a", license_count := 1 }
      rfl (by simp) rfl⟩

/-- Claim C10 — Monitor recovery: every iteration of the polling loop yields a
message (the loop never dies: a trace of `n` iterations has exactly `n`
entries), every iteration sleeps the fixed 5-second interval, and an iteration
whose read/parse of the progress file fails (including on malformed field
values) reports the transient error line instead of terminating. -/
theorem monitor_recovery (envs : Nat → MonitorEnv) (n : Nat) (hn : 0 < n) :
    (monitorTrace envs n).length = n ∧
    (∀ p ∈ monitorTrace envs n, p.2 = monitorInterval) ∧
    (∀ i raw, i < n → (envs i).progressFile = some raw →
      monitorTryBody raw (envs i).spdxCount = Except.error () →
      (monitorTrace envs n)[i]? = some (MonitorMsg.errorLine, monitorInterval)) := by
  clear hn
  induction n with
  | zero =>
    refine ⟨rfl, ?_, ?_⟩
    · intro p hp
      simp [monitorTrace] at hp
    · intro i raw hi
      omega
  | succ m ih =>
    refine ⟨?_, ?_, ?_⟩
    · simp only [monitorTrace, List.length_append, ih.1, List.length_cons,
        List.length_nil]
    · intro p hp
      rw [monitorTrace] at hp
      rcases List.mem_append.mp hp with h | h
      · exact ih.2.1 p h
      · simp only [List.mem_singleton] at h
        rw [h]
    · intro i raw hi hfile herr
      rcases Nat.lt_or_ge i m with h | h
      · rw [monitorTrace, List.getElem?_append_left (by rw [ih.1]; exact h)]
        exact ih.2.2 i raw h hfile herr
      · have hi2 : i = m := by omega
        subst hi2
        rw [monitorTrace, List.getElem?_append_right (by rw [ih.1]), ih.1,
          Nat.sub_self]
        simp only [monitorIteration, hfile, herr, List.getElem?_cons_zero]

/-- Witness for C10: one iteration against a progress file whose
`last_updated` field is a number (slicing it raises `TypeError` inside the
`try` block). -/
theorem monitor_recovery_witness :
    (monitorTrace (fun _ =>
        { progressFile := some (some (Json.obj [("last_updated", Json.num 5)])),
          spdxCount := none }) 1).length = 1 ∧
    (∀ p ∈ monitorTrace (fun _ =>
        { progressFile := some (some (Json.obj [("last_updated", Json.num 5)])),
          spdxCount := none }) 1, p.2 = monitorInterval) ∧
    (∀ i raw, i < 1 →
      ((fun (_ : Nat) =>
        ({ progressFile := some (some (Json.obj [("last_updated", Json.num 5)])),
           spdxCount := none } : MonitorEnv)) i).progressFile = some raw →
      monitorTryBody raw ((fun (_ : Nat) =>
        ({ progressFile := some (some (Json.obj [("last_updated", Json.num 5)])),
           spdxCount := none } : MonitorEnv)) i).spdxCount = Except.error () →
      (monitorTrace (fun _ =>
        { progressFile := some (some (Json.obj [("last_updated", Json.num 5)])),
          spdxCount := none }) 1)[i]? =
        some (MonitorMsg.errorLine, monitorInterval)) :=
  monitor_recovery
    (fun _ => { progressFile := some (some (Json.obj [("last_updated", Json.num 5)])),
                spdxCount := none }) 1 (by decide)

lemma dictGet_map_chunkFileName {γ : Type} (g : Nat → γ) :
    ∀ (l : List Nat) (j : Nat), j ∈ l →
      dictGet (l.map (fun i => (chunkFileName i, g i))) (chunkFileName j) = some (g j) := by
  intro l
  induction l with
  | nil => intro j hj; simp at hj
  | cons a t ih =>
    intro j hj
    simp only [List.map_cons, dictGet]
    by_cases h : chunkFileName a = chunkFileName j
    · have ha : a = j := chunkFileName_inj h
      subst ha
      simp
    · rw [if_neg h]
      apply ih
      rcases List.mem_cons.mp hj with h1 | h1
      · exact absurd (by rw [h1]) h
      · exact h1

lemma loadChunks_split_eval (compatibility : List (String × Json)) (ids : List String)
    (k nc : Nat) :
    ∀ (idxs : List Nat) (acc : List (String × Json)),
      (∀ j ∈ idxs, j ∈ List.range nc) →
      loadChunks
        ((List.range nc).map
          (fun i => (chunkFileName i, buildChunkFile compatibility ids k i)))
        (idxs.map (buildChunkDescriptor ids k)) acc =
      Except.ok (idxs.foldl
        (fun a i => dictUpdate a (buildChunkFile compatibility ids k i).compatibility)
        acc) := by
  intro idxs
  induction idxs with
  | nil => intro acc _; rfl
  | cons j rest ih =>
    intro acc hmem
    have hfile : (buildChunkDescriptor ids k j).file = chunkFileName j := rfl
    simp only [List.map_cons, loadChunks, List.foldl_cons, hfile,
      dictGet_map_chunkFileName (fun i => buildChunkFile compatibility ids k i)
        (List.range nc) j (hmem j (by simp))]
    exact ih _ (fun x hx => hmem x (by simp [hx]))

/-- Claim C1 — Round-trip: for every document with unique license keys and
every chunk size `k ≥ 1`, reconstructing with `load_split_matrix` from the
chunk and index files written by `split_compatibility_matrix` yields a
compatibility mapping set-equal to the document's: the key multisets agree
and lookup agrees on every key.  The input's key insertion order is
universally quantified, so the guarantee holds regardless of it. -/
theorem round_trip (v g : Json) (compatibility : List (String × Json)) {k : Nat}
    (hk : 0 < k) (hnd : (compatibility.map Prod.fst).Nodup) :
    ∃ doc, load_split_matrix
        (writtenDirectory (split_compatibility_matrix v g compatibility k)) =
      Except.ok doc ∧
      (doc.compatibility.map Prod.fst).Perm (compatibility.map Prod.fst) ∧
      ∀ key, dictGet doc.compatibility key = dictGet compatibility key := by
  refine ⟨{ version := v, generated := g,
            total_licenses := (sortedLicenseIds compatibility).length,
            compatibility := (sortedLicenseIds compatibility).map
              (fun s => (s, (dictGet compatibility s).getD Json.null)) }, ?_, ?_, ?_⟩
  · have hload : load_split_matrix
        (writtenDirectory (split_compatibility_matrix v g compatibility k)) =
        match loadChunks (split_compatibility_matrix v g compatibility k).files
            (split_compatibility_matrix v g compatibility k).index.chunks [] with
        | Except.error e => Except.error e
        | Except.ok compat =>
            Except.ok
              { version := v
                generated := g
                total_licenses := (sortedLicenseIds compatibility).length
                compatibility := compat } := rfl
    rw [hload, split_files, split_chunks,
      loadChunks_split_eval compatibility (sortedLicenseIds compatibility) k
        (ceilDiv (sortedLicenseIds compatibility).length k)
        (List.range (ceilDiv (sortedLicenseIds compatibility).length k)) []
        (fun j hj => hj)]
    have hfold : (List.range (ceilDiv (sortedLicenseIds compatibility).length k)).foldl
        (fun a i =>
          dictUpdate a (buildChunkFile compatibility (sortedLicenseIds compatibility) k i).compatibility)
        [] =
        (sortedLicenseIds compatibility).map
          (fun s => (s, (dictGet compatibility s).getD Json.null)) := by
      rw [← List.foldl_map
        (fun i => (buildChunkFile compatibility (sortedLicenseIds compatibility) k i).compatibility)
        dictUpdate]
      have hL : (List.range (ceilDiv (sortedLicenseIds compatibility).length k)).map
          (fun i => (buildChunkFile compatibility (sortedLicenseIds compatibility) k i).compatibility) =
          ((List.range (ceilDiv (sortedLicenseIds compatibility).length k)).map
            (fun i => ((sortedLicenseIds compatibility).drop (i * k)).take k)).map
            (List.map (fun s => (s, (dictGet compatibility s).getD Json.null))) := by
        rw [List.map_map]
        apply List.map_eq_map_iff.mpr
        intro i _
        exact buildChunkFile_compat compatibility (sortedLicenseIds compatibility) k i
      have hflat : (((List.range (ceilDiv (sortedLicenseIds compatibility).length k)).map
            (fun i => ((sortedLicenseIds compatibility).drop (i * k)).take k)).map
            (List.map (fun s => (s, (dictGet compatibility s).getD Json.null)))).flatten =
          (sortedLicenseIds compatibility).map
            (fun s => (s, (dictGet compatibility s).getD Json.null)) := by
        rw [← List.map_flatten, flatten_take_chunks hk _ _ rfl]
      rw [hL]
      rw [foldl_dictUpdate_flatten _ [] (by
        rw [hflat]
        simp only [List.nil_append, List.map_map]
        have hcomp : ((fun p => p.1) ∘
            (fun s => (s, (dictGet compatibility s).getD Json.null))) = fun s => s := rfl
        rw [hcomp, List.map_id']
        exact sortedLicenseIds_nodup hnd)]
      rw [List.nil_append, hflat]
    rw [hfold]
  · simp only [List.map_map]
    have hcomp : ((fun (p : String × Json) => p.1) ∘
        (fun s => (s, (dictGet compatibility s).getD Json.null))) = fun s => s := rfl
    rw [hcomp, List.map_id']
    exact sortedLicenseIds_perm compatibility
  · intro key
    rw [dictGet_map_self]
    by_cases hmem : key ∈ sortedLicenseIds compatibility
    · rw [if_pos hmem]
      have hmem2 : key ∈ compatibility.map Prod.fst :=
        ((sortedLicenseIds_perm compatibility).mem_iff).mp hmem
      rcases dictGet_isSome_of_mem hmem2 with ⟨val, hval⟩
      rw [hval]
      rfl
    · rw [if_neg hmem]
      have hmem2 : key ∉ compatibility.map Prod.fst :=
        fun h => hmem (((sortedLicenseIds_perm compatibility).mem_iff).mpr h)
      exact ((dictGet_eq_none_iff compatibility key).mpr hmem2).symm

/-- Witness for C1: a two-key document given in unsorted insertion order,
chunk size 1 (two singleton chunks). -/
theorem round_trip_witness :
    ∃ doc, load_split_matrix
        (writtenDirectory (split_compatibility_matrix Json.null Json.null
          [("b", Json.num 1), ("a", Json.num 2)] 1)) =
      Except.ok doc ∧
      (doc.compatibility.map Prod.fst).Perm
        ([("b", Json.num 1), ("a", Json.num 2)].map Prod.fst) ∧
      ∀ key, dictGet doc.compatibility key =
        dictGet [("b", Json.num 1), ("a", Json.num 2)] key :=
  round_trip Json.null Json.null [("b", Json.num 1), ("a", Json.num 2)]
    (by decide) (by decide)

end Ospac
